import Mathlib

/-!
Verification development for the uplift-sample-api-app export client.

The definitions below are a shallow embedding of the Node.js source:
`nodejs/app.js` (`checkJobStatus`, `handleDataExport`, `handleExportProcess`),
the retrying API client (`createExportJob` / `getJobStatus` / `getJobResults`
with 504-retry and `handleError`), and `nodejs/file.js` (`writeCsvFile`).
Asynchronous effects (HTTP calls, timers, the file system) are made explicit:
the HTTP transport becomes an oracle function, timer waits are recorded as
lists of millisecond values, and the file system becomes a value threaded
through `writeCsvFile`.
-/

namespace UpliftSample

/-- JavaScript truthiness of a string-valued variable that may be
`null`/`undefined` (modelled as `none`); the empty string is falsy. -/
def jsTruthyStr : Option String → Bool
  | none => false
  | some s => decide (s ≠ "")

/-- A result row.  `handleDataExport` reads only the `sessionid` and
`athleteid` columns of a row; everything else is opaque to it, and is
represented by the `data` field. -/
structure Row where
  athleteid : String
  sessionid : String
  data : Nat
deriving DecidableEq

/-- The partition key of a row: the `(athleteid, sessionid)` pair. -/
def keyOf (r : Row) : String × String := (r.athleteid, r.sessionid)

/-- A row whose two key columns are truthy in the JavaScript sense
(non-empty strings). -/
def truthyRow (r : Row) : Prop := r.athleteid ≠ "" ∧ r.sessionid ≠ ""

instance (r : Row) : Decidable (truthyRow r) := by
  unfold truthyRow; infer_instance

/-- The mutable locals of `handleDataExport` (app.js lines 63–65):
`sessionId` and `athleteId` start as `null` (here `none`) and
`rowsToWrite` accumulates the rows of the currently open group. -/
structure PartState where
  sessionId : Option String
  athleteId : Option String
  rowsToWrite : List Row
deriving DecidableEq

/-- Initial partitioner state: both ids `null`, empty buffer. -/
def initState : PartState := ⟨none, none, []⟩

/-- One call `writeCsvFile(rowsToWrite, athleteId, sessionId)` as observed
at the sink boundary. -/
structure Flush where
  rows : List Row
  athleteId : Option String
  sessionId : Option String
deriving DecidableEq

/-- The body of the `for (const row of result.rows)` loop of
`handleDataExport` (app.js lines 77–104): flush on an athleteId change,
then flush on a sessionId change, then push the row and update both ids.
Returns the new state and the `writeCsvFile` calls made, in order. -/
def processRow (st : PartState) (row : Row) : PartState × List Flush :=
  let s1 : PartState × List Flush :=
    if jsTruthyStr st.athleteId ∧ st.athleteId ≠ some row.athleteid then
      if 0 < st.rowsToWrite.length then
        ({ st with rowsToWrite := [] }, [⟨st.rowsToWrite, st.athleteId, st.sessionId⟩])
      else (st, [])
    else (st, [])
  let st1 := s1.1
  let s2 : PartState × List Flush :=
    if jsTruthyStr st1.sessionId ∧ st1.sessionId ≠ some row.sessionid then
      if 0 < st1.rowsToWrite.length then
        ({ st1 with rowsToWrite := [] }, [⟨st1.rowsToWrite, st1.athleteId, st1.sessionId⟩])
      else (st1, [])
    else (st1, [])
  let st2 := s2.1
  ({ sessionId := some row.sessionid, athleteId := some row.athleteid,
     rowsToWrite := st2.rowsToWrite ++ [row] }, s1.2 ++ s2.2)

/-- Run the row loop over a list of rows from a given state. -/
def processRowsFrom (st : PartState) : List Row → PartState × List Flush
  | [] => (st, [])
  | r :: rs =>
    let p := processRow st r
    let q := processRowsFrom p.1 rs
    (q.1, p.2 ++ q.2)

/-- The flush after the stream ends (app.js lines 114–116): one more
`writeCsvFile` call when the buffer is non-empty. -/
def finalFlush (st : PartState) : List Flush :=
  if st.rowsToWrite ≠ [] then [⟨st.rowsToWrite, st.athleteId, st.sessionId⟩] else []

/-- All sink calls made when the row loop runs from state `st` over `rows`
and the stream then ends. -/
def partFrom (st : PartState) (rows : List Row) : List Flush :=
  (processRowsFrom st rows).2 ++ finalFlush (processRowsFrom st rows).1

/-- All sink calls of one `handleDataExport` run over the flattened row
stream `rows`. -/
def partitionFlushes (rows : List Row) : List Flush :=
  partFrom initState rows

/-- The partitioner state after processing a prefix of the stream. -/
def stateAfter (pre : List Row) : PartState := (processRowsFrom initState pre).1

/-- All rows delivered to the sink by a list of flush calls, in order. -/
def flushedRows (fs : List Flush) : List Row := (fs.map Flush.rows).flatten

/-- Specification-side grouping: starting from an open group with key `k`
and buffered rows `b`, split the remaining stream into maximal contiguous
runs of equal-keyed rows, one flush per run. -/
def collectFlushes (k : String × String) (b : List Row) : List Row → List Flush
  | [] => [⟨b, some k.1, some k.2⟩]
  | r :: rs =>
    if keyOf r = k then collectFlushes k (b ++ [r]) rs
    else ⟨b, some k.1, some k.2⟩ :: collectFlushes (keyOf r) [r] rs

/-- Specification-side flush sequence for a stream: one flush per maximal
contiguous run of rows sharing a partition key. -/
def runFlushes : List Row → List Flush
  | [] => []
  | r :: rs => collectFlushes (keyOf r) [r] rs

/-- Invariant of the partitioner state while the stream's keys are truthy:
a non-empty single-keyed buffer whose key is the current `(athleteId,
sessionId)` pair. -/
def openInv (st : PartState) : Prop :=
  ∃ ka ks, st.athleteId = some ka ∧ st.sessionId = some ks ∧ ka ≠ "" ∧ ks ≠ "" ∧
    st.rowsToWrite ≠ [] ∧ ∀ r ∈ st.rowsToWrite, keyOf r = (ka, ks)

/-- One transport attempt's outcome: an HTTP success carrying the decoded
payload, or an axios error carrying `error.response?.status` (`none` when
there is no response at all, i.e. a network error). -/
inductive TransportOutcome (α : Type) where
  | ok (a : α)
  | err (status : Option Nat)
deriving DecidableEq

/-- `handleError` of api.js: the classification message logged for an
error that is not retried, by HTTP status code of the response (the
default and no-response cases log the status or the network message after
the shown prefix). -/
def classifyError : Option Nat → String
  | some 400 => "Bad Request: Please check the job ID or request parameters."
  | some 401 => "Unauthorized: Check your authorization token."
  | some 403 => "Forbidden: You do not have access to this resource."
  | some 404 => "Not Found: The specified job ID does not exist or has no results."
  | some 429 => "Too Many Requests: You are being rate limited. Try again later."
  | some 500 => "Internal Server Error: Something went wrong on the server."
  | some s => "Error " ++ toString s ++ ":"
  | none => "Error:"

/-- Observable behaviour of one client operation: the value returned or
the axios error rethrown (carrying its status), the backoff delays
performed in order, the number of transport calls made, and the messages
logged by `handleError`. -/
structure ReqResult (α : Type) where
  result : Except (Option Nat) α
  delays : List Nat
  calls : Nat
  logs : List String

/-- The recursive `makeRequest` closure shared by `createExportJob`,
`getJobStatus` and `getJobResults` of api.js: on a 504 with
`retryCount < maxRetries` it increments the counter, waits
`retryDelay * 2 ^ (retryCount - 1)` for the incremented counter value, and
retries; any other failure is classified by `handleError` and rethrown.
The JavaScript guard `retryCount < maxRetries` is carried here as
`remaining = maxRetries - retryCount`, which is positive exactly when the
guard holds and decreases by one per retry; `callIdx` indexes the
transport oracle. -/
def makeRequestGo (oracle : Nat → TransportOutcome α) (retryDelay : Nat) :
    Nat → Nat → Nat → ReqResult α
  | callIdx, retryCount, remaining =>
    match oracle callIdx with
    | .ok a => ⟨.ok a, [], 1, []⟩
    | .err st =>
      match remaining with
      | 0 => ⟨.error st, [], 1, [classifyError st]⟩
      | remaining' + 1 =>
        if st = some 504 then
          let r := makeRequestGo oracle retryDelay (callIdx + 1) (retryCount + 1) remaining'
          ⟨r.result, retryDelay * 2 ^ ((retryCount + 1) - 1) :: r.delays,
            r.calls + 1, r.logs⟩
        else ⟨.error st, [], 1, [classifyError st]⟩

/-- One full client operation: `makeRequest` run with fresh retry state
(`retryCount = 0`). -/
def makeRequest (oracle : Nat → TransportOutcome α) (maxRetries retryDelay : Nat) :
    ReqResult α :=
  makeRequestGo oracle retryDelay 0 0 maxRetries

/-- `getJobStatus` of api.js: an untruthy `jobId` short-circuits to
`undefined` (`none` here) without any transport call; otherwise the
retrying request runs and yields the job's status string. -/
def getJobStatus (oracle : Nat → TransportOutcome String) (jobId : Option String)
    (maxRetries retryDelay : Nat) : Option (ReqResult String) :=
  if jsTruthyStr jobId then some (makeRequest oracle maxRetries retryDelay) else none

/-- An error value thrown during a run: an axios error escaping a client
call (with its HTTP status), or a JavaScript `Error` with a message. -/
inductive JsError where
  | http (status : Option Nat)
  | js (msg : String)
deriving DecidableEq

/-- An outcome of `checkJobStatus`: a returned value (`some true`, or
`none` for `undefined`) or a thrown error. -/
inductive JsOutcome where
  | ret (v : Option Bool)
  | thrown (e : JsError)
deriving DecidableEq

/-- Template interpolation of a possibly-`undefined` status value. -/
def jsShowStatus : Option String → String
  | none => "undefined"
  | some s => s

/-- Observable behaviour of one `checkJobStatus` run: its outcome (`none`
when the modelled poll sequence is exhausted while the job still runs),
the number of `getJobStatus` polls made, and the sleeps performed. -/
structure PollRun where
  outcome : Option JsOutcome
  polls : Nat
  sleeps : List Nat
deriving DecidableEq

/-- `checkJobStatus` of app.js (lines 19–41) as a function of the sequence
of poll results; each list entry is one `getJobStatus` call's result — a
returned status value or a thrown error.  The inner `if` mirrors the
`do … while (status === 'RUNNING')` loop condition: only the RUNNING
branch reaches it, so falling out of the loop and returning `undefined`
(the inner else) is unreachable — claim C10 is about exactly that. -/
def checkJobStatus : List (Except JsError (Option String)) → PollRun
  | [] => ⟨none, 0, []⟩
  | .error e :: _ => ⟨some (.thrown e), 1, []⟩
  | .ok s :: rest =>
    if s = some "COMPLETED" then ⟨some (.ret (some true)), 1, []⟩
    else if s = some "FAILED" ∨ s = some "CANCELED" then
      ⟨some (.thrown (.js ("Job " ++ jsShowStatus s ++ ". Unable to retrieve result."))),
        1, []⟩
    else if s = some "RUNNING" then
      if s = some "RUNNING" then
        let r := checkJobStatus rest
        ⟨r.outcome, r.polls + 1, 5000 :: r.sleeps⟩
      else ⟨some (.ret none), 1, [5000]⟩
    else ⟨some (.thrown (.js ("Unexpected Job Status: " ++ jsShowStatus s))), 1, []⟩

/-- The `if (status)` guard of `handleExportProcess` (app.js line 173):
JavaScript truthiness of the value `checkJobStatus` returned. -/
def exportGuard : Option Bool → Bool
  | some b => b
  | none => false

/-- Observable behaviour of one `handleDataExport` run: its outcome
(`none` when the modelled fuel ran out mid-loop), the number of
`getJobResult` calls, the offsets they were made at, the sink flushes
performed, and the inter-page sleeps. -/
structure ExportResult where
  outcome : Option (Except JsError Unit)
  calls : Nat
  offsets : List Nat
  flushes : List Flush
  sleeps : List Nat

/-- The `while (true)` pagination loop of `handleDataExport` (app.js lines
62–121): fetch a page at the current offset (the oracle models
`getJobResult`, applied to offset and limit; `.error` is a thrown fetch
error, `.ok none` a falsy result), stop on a falsy result or an empty page
and perform the final flush, otherwise run the row loop, advance the
offset by the page length, sleep 1000ms and continue.  A thrown error
skips the final flush and is rethrown wrapped in the catch-all message. -/
def handleDataExport (pages : Nat → Nat → Except JsError (Option (List Row)))
    (offset limit : Nat) (st : PartState) : Nat → ExportResult
  | 0 => ⟨none, 0, [], [], []⟩
  | fuel + 1 =>
    match pages offset limit with
    | .error _ =>
      ⟨some (.error (.js
          "Failed to export data due to an error in fetching or saving data.")),
        1, [offset], [], []⟩
    | .ok none => ⟨some (.ok ()), 1, [offset], finalFlush st, []⟩
    | .ok (some rows) =>
      if rows.length = 0 then ⟨some (.ok ()), 1, [offset], finalFlush st, []⟩
      else
        let p := processRowsFrom st rows
        let r := handleDataExport pages (offset + rows.length) limit p.1 fuel
        ⟨r.outcome, r.calls + 1, offset :: r.offsets, p.2 ++ r.flushes, 1000 :: r.sleeps⟩

/-- The per-category environment of one `handleExportProcess` iteration:
the submission outcome (`createExportJob`'s returned jobId, possibly
`undefined`, or the error it threw), the poll results consumed by
`checkJobStatus`, and the page oracle consumed by `handleDataExport`. -/
structure CatFate where
  submit : Except JsError (Option String)
  statuses : List (Except JsError (Option String))
  pages : Nat → Nat → Except JsError (Option (List Row))

/-- Observable behaviour of one category iteration of
`handleExportProcess`. -/
structure CatResult where
  outcome : Option (Except JsError Unit)
  polls : Nat
  fetches : Nat
  offsets : List Nat
  flushes : List Flush

/-- One iteration of the `for (const category of categories)` loop of
`handleExportProcess` (app.js lines 154–182): submit the job; a truthy
jobId is polled with `checkJobStatus`, and a truthy poll result triggers
`handleDataExport` at offset 0 with limit 500; an untruthy jobId or poll
result skips silently; a thrown error is caught, logged and rethrown. -/
def processCategory (fate : CatFate) (fuel : Nat) : CatResult :=
  match fate.submit with
  | .error e => ⟨some (.error e), 0, 0, [], []⟩
  | .ok jobId =>
    if jsTruthyStr jobId then
      let pr := checkJobStatus fate.statuses
      match pr.outcome with
      | some (.thrown e) => ⟨some (.error e), pr.polls, 0, [], []⟩
      | some (.ret v) =>
        if exportGuard v then
          let ex := handleDataExport fate.pages 0 500 initState fuel
          ⟨ex.outcome, pr.polls, ex.calls, ex.offsets, ex.flushes⟩
        else ⟨some (.ok ()), pr.polls, 0, [], []⟩
      | none => ⟨none, pr.polls, 0, [], []⟩
    else ⟨some (.ok ()), 0, 0, [], []⟩

/-- `handleExportProcess`'s loop across the whole category list: processed
strictly in order; the first category whose processing ends in a thrown
error aborts the run (the error is rethrown by the catch block), and no
later category is reached.  Returns the overall outcome, the number of
categories started (each started category begins with a `createExportJob`
submission), and the per-category results in order. -/
def handleExportProcess :
    List CatFate → Nat → Option (Except JsError Unit) × Nat × List CatResult
  | [], _ => (some (.ok ()), 0, [])
  | f :: rest, fuel =>
    let r := processCategory f fuel
    match r.outcome with
    | none => (none, 1, [r])
    | some (.error e) => (some (.error e), 1, [r])
    | some (.ok _) =>
      let p := handleExportProcess rest fuel
      (p.1, p.2.1 + 1, r :: p.2.2)

/-- A CSV row as `csv-stringify` sees it: an ordered association of column
name to value. -/
abbrev CsvRow : Type := List (String × String)

/-- A cell value: the stringifier emits an empty field for a missing
column. -/
def cellOf (r : CsvRow) (h : String) : String :=
  match List.lookup h r with
  | some v => v
  | none => ""

/-- One CSV record line. -/
def csvLine (cells : List String) : String := String.intercalate "," cells ++ "\n"

/-- `stringify(rows, { header: true, columns: headers })` of
csv-stringify: a header record followed by one record per row, restricted
to `headers`. -/
def csvStringify (headers : List String) (rows : List CsvRow) : String :=
  csvLine headers ++ String.join (rows.map (fun r => csvLine (headers.map (cellOf r))))

/-- The file-system state `writeCsvFile` mutates: the existing directories
and the contents of each file. -/
structure FileSys where
  dirs : List String
  files : List (String × String)

/-- Current content of a file (`""` when the file does not exist). -/
def readFileOrEmpty (fs : FileSys) (path : String) : String :=
  match List.lookup path fs.files with
  | some c => c
  | none => ""

/-- `fs.appendFileSync`: creates the file when absent, appends to it
otherwise. -/
def appendFileSync (fs : FileSys) (path content : String) : FileSys :=
  ⟨fs.dirs, (path, readFileOrEmpty fs path ++ content)
      :: fs.files.filter (fun p => !(p.1 == path))⟩

/-- `writeCsvFile(rows, athleteId, sessionId)` of file.js (lines 39–76):
ensure the athlete folder exists, then append
`stringify(rows, { header: true, columns: Object.keys(rows[0]) })` to the
session file.  `none` models the `TypeError` thrown by
`Object.keys(rows[0])` when `rows` is empty. -/
def writeCsvFile (fs : FileSys) (rows : List CsvRow) (athleteId sessionId : String) :
    Option FileSys :=
  match rows with
  | [] => none
  | r0 :: _ =>
    let folderPath := "./data/" ++ athleteId
    let fs1 : FileSys :=
      if fs.dirs.contains folderPath then fs else ⟨folderPath :: fs.dirs, fs.files⟩
    let filePath := folderPath ++ "/session_" ++ sessionId ++ ".csv"
    let headers := List.map Prod.fst r0
    let output := csvStringify headers rows
    some (appendFileSync fs1 filePath output)

/-- A transport oracle answering 504 twice and then COMPLETED — claim C2's
scenario. -/
def oracle504 : Nat → TransportOutcome String :=
  fun i => if i < 2 then .err (some 504) else .ok "COMPLETED"

/-- A transport oracle always answering 401 — claim C7's witness. -/
def oracle401 : Nat → TransportOutcome String := fun _ => .err (some 401)

/-- The remote result set of claim C5's scenario: 637 rows of a single
partition key, served in offset/limit slices (pages of 500 and then 137,
then an empty page). -/
def pages637 : Nat → Nat → Except JsError (Option (List Row)) :=
  fun offset limit =>
    .ok (some (((List.replicate 637 (⟨"A", "S", 0⟩ : Row)).drop offset).take limit))

/-- Claim C5's scenario environment: submission succeeds, the polled
status sequence is [RUNNING, RUNNING, COMPLETED], and the result set is
`pages637`. -/
def fate637 : CatFate :=
  ⟨.ok (some "job-1"),
   [.ok (some "RUNNING"), .ok (some "RUNNING"), .ok (some "COMPLETED")], pages637⟩

/-- A category whose whole pipeline succeeds (submission returns a truthy
jobId, one COMPLETED poll, an immediately-empty result set). -/
def okFate : CatFate := ⟨.ok (some "j1"), [.ok (some "COMPLETED")], fun _ _ => .ok none⟩

/-- A category whose submission throws a 401 axios error. -/
def badFate : CatFate := ⟨.error (.http (some 401)), [], fun _ _ => .ok none⟩

lemma processRowsFrom_cons (st : PartState) (r : Row) (rs : List Row) :
    processRowsFrom st (r :: rs)
      = ((processRowsFrom (processRow st r).1 rs).1,
         (processRow st r).2 ++ (processRowsFrom (processRow st r).1 rs).2) := rfl

lemma partFrom_cons (st : PartState) (r : Row) (rs : List Row) :
    partFrom st (r :: rs) = (processRow st r).2 ++ partFrom (processRow st r).1 rs := by
  unfold partFrom
  rw [processRowsFrom_cons]
  simp [List.append_assoc]

lemma processRow_init (r : Row) :
    processRow initState r = (⟨some r.sessionid, some r.athleteid, [r]⟩, []) := by
  simp [processRow, initState, jsTruthyStr]

lemma processRow_open_eq (ka ks : String) (b : List Row) (r : Row)
    (hk : keyOf r = (ka, ks)) :
    processRow ⟨some ks, some ka, b⟩ r
      = (⟨some r.sessionid, some r.athleteid, b ++ [r]⟩, []) := by
  have ha : r.athleteid = ka := congrArg Prod.fst hk
  have hs : r.sessionid = ks := congrArg Prod.snd hk
  simp [processRow, ha, hs]

lemma processRow_open_ne (ka ks : String) (b : List Row) (r : Row)
    (hka : ka ≠ "") (hks : ks ≠ "") (hb : b ≠ []) (hk : keyOf r ≠ (ka, ks)) :
    processRow ⟨some ks, some ka, b⟩ r
      = (⟨some r.sessionid, some r.athleteid, [r]⟩, [⟨b, some ka, some ks⟩]) := by
  have hlen : 0 < b.length := List.length_pos.mpr hb
  by_cases ha : r.athleteid = ka
  · have hs : r.sessionid ≠ ks := by
      intro hs; exact hk (by simp [keyOf, ha, hs])
    have hs' : ¬ ks = r.sessionid := by
      intro hcontra; exact hs hcontra.symm
    simp [processRow, jsTruthyStr, hka, hks, ha, hs, hs', hlen]
  · have ha' : ¬ ka = r.athleteid := by
      intro hcontra; exact ha hcontra.symm
    simp [processRow, jsTruthyStr, hka, hks, hlen, ha, ha']

lemma processRow_flat (st : PartState) (r : Row) :
    flushedRows (processRow st r).2 ++ (processRow st r).1.rowsToWrite
      = st.rowsToWrite ++ [r] := by
  unfold processRow flushedRows
  dsimp only
  split_ifs <;> simp_all

lemma processRowsFrom_flat (rows : List Row) : ∀ st : PartState,
    flushedRows (processRowsFrom st rows).2 ++ (processRowsFrom st rows).1.rowsToWrite
      = st.rowsToWrite ++ rows := by
  induction rows with
  | nil => intro st; simp [processRowsFrom, flushedRows]
  | cons r rs ih =>
    intro st
    have h1 := processRow_flat st r
    have h2 := ih (processRow st r).1
    rw [processRowsFrom_cons]
    unfold flushedRows at *
    simp only [List.map_append, List.flatten_append, List.append_assoc]
    rw [h2, ← List.append_assoc, h1]
    simp

lemma partFrom_flat (st : PartState) (rows : List Row) :
    flushedRows (partFrom st rows) = st.rowsToWrite ++ rows := by
  have h := processRowsFrom_flat rows st
  unfold partFrom finalFlush
  by_cases hb : (processRowsFrom st rows).1.rowsToWrite = []
  · rw [hb, List.append_nil] at h
    simp only [hb, ne_eq, not_true_eq_false, if_false, List.append_nil]
    exact h
  · simp only [hb, ne_eq, not_false_eq_true, if_true]
    unfold flushedRows at *
    rw [List.map_append, List.flatten_append]
    simpa using h

lemma partFrom_open (rows : List Row) : ∀ (ka ks : String) (b : List Row),
    ka ≠ "" → ks ≠ "" → b ≠ [] → (∀ r ∈ rows, truthyRow r) →
    partFrom ⟨some ks, some ka, b⟩ rows = collectFlushes (ka, ks) b rows := by
  induction rows with
  | nil =>
    intro ka ks b _ _ hb _
    simp [partFrom, processRowsFrom, finalFlush, collectFlushes, hb]
  | cons r rs ih =>
    intro ka ks b hka hks hb htr
    have hr : truthyRow r := htr r (by simp)
    rw [partFrom_cons]
    by_cases hk : keyOf r = (ka, ks)
    · have ha : r.athleteid = ka := congrArg Prod.fst hk
      have hs : r.sessionid = ks := congrArg Prod.snd hk
      rw [processRow_open_eq ka ks b r hk]
      simp only [List.nil_append, collectFlushes, hk, if_true]
      rw [ha, hs]
      exact ih ka ks (b ++ [r]) hka hks (by simp) (fun a haa => htr a (by simp [haa]))
    · rw [processRow_open_ne ka ks b r hka hks hb hk]
      simp only [collectFlushes, hk, if_false]
      have := ih r.athleteid r.sessionid [r] hr.1 hr.2 (by simp)
        (fun a haa => htr a (by simp [haa]))
      simp only [keyOf]
      rw [this]
      rfl

lemma partition_eq_runs (rows : List Row) (h : ∀ r ∈ rows, truthyRow r) :
    partitionFlushes rows = runFlushes rows := by
  cases rows with
  | nil => simp [partitionFlushes, partFrom, processRowsFrom, finalFlush, initState, runFlushes]
  | cons r rs =>
    have hr : truthyRow r := h r (by simp)
    unfold partitionFlushes
    rw [partFrom_cons, processRow_init]
    simp only [List.nil_append, runFlushes, keyOf]
    exact partFrom_open rs r.athleteid r.sessionid [r] hr.1 hr.2 (by simp)
      (fun a haa => h a (by simp [haa]))

lemma collectFlushes_singleKey (rows : List Row) : ∀ (k : String × String) (b : List Row),
    b ≠ [] → (∀ a ∈ b, keyOf a = k) →
    ∀ f ∈ collectFlushes k b rows,
      f.rows ≠ [] ∧ ∀ a ∈ f.rows, f.athleteId = some a.athleteid ∧ f.sessionId = some a.sessionid := by
  induction rows with
  | nil =>
    intro k b hb hbk f hf
    simp only [collectFlushes, List.mem_singleton] at hf
    subst hf
    refine ⟨hb, fun a ha => ?_⟩
    have := hbk a ha
    unfold keyOf at this
    simp [← this]
  | cons r rs ih =>
    intro k b hb hbk f hf
    by_cases hk : keyOf r = k
    · simp only [collectFlushes, hk, if_true] at hf
      refine ih k (b ++ [r]) (by simp) ?_ f hf
      intro a ha
      rcases List.mem_append.mp ha with ha | ha
      · exact hbk a ha
      · simp only [List.mem_singleton] at ha; subst ha; exact hk
    · simp only [collectFlushes, hk, if_false, List.mem_cons] at hf
      rcases hf with hf | hf
      · subst hf
        refine ⟨hb, fun a ha => ?_⟩
        have := hbk a ha
        unfold keyOf at this
        simp [← this]
      · refine ih (keyOf r) [r] (by simp) ?_ f hf
        intro a ha
        simp only [List.mem_singleton] at ha; subst ha; rfl

lemma openInv_step (st : PartState) (r : Row) (h : st = initState ∨ openInv st)
    (hr : truthyRow r) : openInv (processRow st r).1 := by
  rcases h with h | h
  · subst h; rw [processRow_init]
    exact ⟨r.athleteid, r.sessionid, rfl, rfl, hr.1, hr.2, by simp, by
      intro a ha; simp only [List.mem_singleton] at ha; subst ha; rfl⟩
  · rcases h with ⟨ka, ks, hA, hS, hka, hks, hb, hbk⟩
    have hst : st = ⟨some ks, some ka, st.rowsToWrite⟩ := by
      cases st; simp_all
    by_cases hk : keyOf r = (ka, ks)
    · rw [hst, processRow_open_eq ka ks _ r hk]
      refine ⟨r.athleteid, r.sessionid, rfl, rfl, hr.1, hr.2, by simp, ?_⟩
      intro a ha
      rcases List.mem_append.mp ha with ha | ha
      · rw [hbk a ha, ← hk]; rfl
      · simp only [List.mem_singleton] at ha; subst ha; rfl
    · rw [hst, processRow_open_ne ka ks _ r hka hks hb hk]
      exact ⟨r.athleteid, r.sessionid, rfl, rfl, hr.1, hr.2, by simp, by
        intro a ha; simp only [List.mem_singleton] at ha; subst ha; rfl⟩

lemma openInv_run (rows : List Row) : ∀ st, (st = initState ∨ openInv st) →
    (∀ r ∈ rows, truthyRow r) →
    ((processRowsFrom st rows).1 = initState ∨ openInv (processRowsFrom st rows).1) := by
  induction rows with
  | nil => intro st h _; simpa [processRowsFrom] using h
  | cons r rs ih =>
    intro st h htr
    rw [processRowsFrom_cons]
    exact ih (processRow st r).1 (Or.inr (openInv_step st r h (htr r (by simp))))
      (fun a ha => htr a (by simp [ha]))

lemma stateAfter_inv (pre : List Row) (h : ∀ r ∈ pre, truthyRow r) :
    stateAfter pre = initState ∨ openInv (stateAfter pre) :=
  openInv_run pre initState (Or.inl rfl) h

lemma partition_singleKey (rows : List Row) (h : ∀ r ∈ rows, truthyRow r) :
    ∀ f ∈ partitionFlushes rows, f.rows ≠ [] ∧
      ∀ a ∈ f.rows, f.athleteId = some a.athleteid ∧ f.sessionId = some a.sessionid := by
  rw [partition_eq_runs rows h]
  cases rows with
  | nil => intro f hf; simp [runFlushes] at hf
  | cons r rs =>
    intro f hf
    refine collectFlushes_singleKey rs (keyOf r) [r] (by simp) ?_ f ?_
    · intro a ha; simp only [List.mem_singleton] at ha; subst ha; rfl
    · simpa [runFlushes] using hf

/-- C1 (amended): provided every row of the stream has truthy (non-empty)
`athleteid` and `sessionid` values, during `handleDataExport`'s processing
of one job's row stream every fetched row reaches the sink exactly once
(the flushed groups concatenate to the stream), every sink call is
non-empty and receives rows of a single partition key — the key it is
flushed under —, at most one partition key has buffered unflushed rows at
any point, and whenever an incoming row's key differs from the buffered
key the buffer is flushed under the old key before the new row is
buffered. -/
theorem partitioner_single_open_key (rows : List Row) (h : ∀ r ∈ rows, truthyRow r) :
    flushedRows (partitionFlushes rows) = rows ∧
    (∀ f ∈ partitionFlushes rows, f.rows ≠ [] ∧
      ∀ a ∈ f.rows, f.athleteId = some a.athleteid ∧ f.sessionId = some a.sessionid) ∧
    (∀ pre suf, rows = pre ++ suf →
      ∀ a ∈ (stateAfter pre).rowsToWrite, ∀ b ∈ (stateAfter pre).rowsToWrite,
        keyOf a = keyOf b) ∧
    (∀ pre r suf, rows = pre ++ r :: suf →
      (∀ a ∈ (stateAfter pre).rowsToWrite, keyOf a ≠ keyOf r) →
      (stateAfter pre).rowsToWrite ≠ [] →
      (processRow (stateAfter pre) r).2
        = [⟨(stateAfter pre).rowsToWrite, (stateAfter pre).athleteId,
            (stateAfter pre).sessionId⟩]) := by
  refine ⟨?_, partition_singleKey rows h, ?_, ?_⟩
  · simpa [partitionFlushes, initState] using partFrom_flat initState rows
  · intro pre suf hsplit a ha b hb
    have hpre : ∀ r ∈ pre, truthyRow r := by
      intro r hr; exact h r (by rw [hsplit]; exact List.mem_append.mpr (Or.inl hr))
    rcases stateAfter_inv pre hpre with hinv | hinv
    · rw [hinv] at ha; simp [initState] at ha
    · obtain ⟨ka, ks, _, _, _, _, _, hbk⟩ := hinv
      rw [hbk a ha, hbk b hb]
  · intro pre r suf hsplit hne hnb
    have hpre : ∀ x ∈ pre, truthyRow x := by
      intro x hx; exact h x (by rw [hsplit]; exact List.mem_append.mpr (Or.inl hx))
    rcases stateAfter_inv pre hpre with hinv | hinv
    · rw [hinv] at hnb; simp [initState] at hnb
    · obtain ⟨ka, ks, hA, hS, hka, hks, hb, hbk⟩ := hinv
      obtain ⟨a0, ha0⟩ := List.exists_mem_of_ne_nil _ hb
      have hkr : keyOf r ≠ (ka, ks) := by
        intro hcontra
        exact hne a0 ha0 (by rw [hbk a0 ha0, hcontra])
      have hst : stateAfter pre = ⟨some ks, some ka, (stateAfter pre).rowsToWrite⟩ := by
        cases hc : stateAfter pre
        rw [hc] at hA hS
        simp_all
      rw [hst, processRow_open_ne ka ks _ r hka hks hnb hkr]

/-- C1 is false as literally stated: with an empty-string (JavaScript-falsy)
`athleteid` on the first row, the key-change guard `if (athleteId && ...)`
never fires, so the single final sink call receives rows bearing two
different partition keys. -/
theorem partitioner_mixed_key_cex :
    partitionFlushes [⟨"", "S", 1⟩, ⟨"A", "S", 2⟩]
      = [⟨[⟨"", "S", 1⟩, ⟨"A", "S", 2⟩], some "A", some "S"⟩] ∧
    keyOf (⟨"", "S", 1⟩ : Row) ≠ keyOf (⟨"A", "S", 2⟩ : Row) := by
  decide

/-- C1 witness: the amended statement instantiated at a concrete stream of
three rows over two athletes and two sessions. -/
theorem partitioner_single_open_key_witness :
    flushedRows (partitionFlushes [⟨"A", "S1", 1⟩, ⟨"A", "S2", 2⟩, ⟨"B", "S2", 3⟩])
        = [⟨"A", "S1", 1⟩, ⟨"A", "S2", 2⟩, ⟨"B", "S2", 3⟩] ∧
    (∀ f ∈ partitionFlushes [⟨"A", "S1", 1⟩, ⟨"A", "S2", 2⟩, ⟨"B", "S2", 3⟩], f.rows ≠ [] ∧
      ∀ a ∈ f.rows, f.athleteId = some a.athleteid ∧ f.sessionId = some a.sessionid) ∧
    (∀ pre suf, [⟨"A", "S1", 1⟩, ⟨"A", "S2", 2⟩, ⟨"B", "S2", 3⟩] = pre ++ suf →
      ∀ a ∈ (stateAfter pre).rowsToWrite, ∀ b ∈ (stateAfter pre).rowsToWrite,
        keyOf a = keyOf b) ∧
    (∀ pre r suf, [⟨"A", "S1", 1⟩, ⟨"A", "S2", 2⟩, ⟨"B", "S2", 3⟩] = pre ++ r :: suf →
      (∀ a ∈ (stateAfter pre).rowsToWrite, keyOf a ≠ keyOf r) →
      (stateAfter pre).rowsToWrite ≠ [] →
      (processRow (stateAfter pre) r).2
        = [⟨(stateAfter pre).rowsToWrite, (stateAfter pre).athleteId,
            (stateAfter pre).sessionId⟩]) :=
  partitioner_single_open_key [⟨"A", "S1", 1⟩, ⟨"A", "S2", 2⟩, ⟨"B", "S2", 3⟩] (by decide)

/-- C6 (amended): provided every row's partition-key columns are truthy
(non-empty), the partitioner emits exactly one sink flush per maximal
contiguous run of equal-keyed rows; in particular the stream of 3 rows
A/S1, 2 rows A/S2 and 1 row B/S2 produces exactly the three flush calls
(A,S1,3 rows), (A,S2,2 rows), (B,S2,1 row) in that order. -/
theorem partitioner_runs_flushes :
    (∀ rows : List Row, (∀ r ∈ rows, truthyRow r) →
      partitionFlushes rows = runFlushes rows) ∧
    partitionFlushes
        [⟨"A", "S1", 1⟩, ⟨"A", "S1", 2⟩, ⟨"A", "S1", 3⟩,
         ⟨"A", "S2", 4⟩, ⟨"A", "S2", 5⟩, ⟨"B", "S2", 6⟩]
      = [⟨[⟨"A", "S1", 1⟩, ⟨"A", "S1", 2⟩, ⟨"A", "S1", 3⟩], some "A", some "S1"⟩,
         ⟨[⟨"A", "S2", 4⟩, ⟨"A", "S2", 5⟩], some "A", some "S2"⟩,
         ⟨[⟨"B", "S2", 6⟩], some "B", some "S2"⟩] :=
  ⟨partition_eq_runs, by decide⟩

/-- C6 witness: the general part of the amended statement instantiated at
the claim's six-row scenario stream. -/
theorem partitioner_runs_flushes_witness :
    partitionFlushes
        [⟨"A", "S1", 1⟩, ⟨"A", "S1", 2⟩, ⟨"A", "S1", 3⟩,
         ⟨"A", "S2", 4⟩, ⟨"A", "S2", 5⟩, ⟨"B", "S2", 6⟩]
      = runFlushes
        [⟨"A", "S1", 1⟩, ⟨"A", "S1", 2⟩, ⟨"A", "S1", 3⟩,
         ⟨"A", "S2", 4⟩, ⟨"A", "S2", 5⟩, ⟨"B", "S2", 6⟩] :=
  partitioner_runs_flushes.1 _ (by decide)

/-- C6 is false as literally stated: a JavaScript-falsy (empty-string)
`athleteid` suppresses the flush-on-key-change guard, so two maximal runs
are merged into a single flush instead of one flush per run. -/
theorem partitioner_runs_cex :
    partitionFlushes [⟨"", "X", 1⟩, ⟨"B", "X", 2⟩]
      ≠ runFlushes [⟨"", "X", 1⟩, ⟨"B", "X", 2⟩] := by
  decide

lemma makeRequestGo_ok {α : Type} (oracle : Nat → TransportOutcome α)
    (rd ci rc rem : Nat) (a : α) (hoc : oracle ci = .ok a) :
    makeRequestGo oracle rd ci rc rem = ⟨.ok a, [], 1, []⟩ := by
  rw [makeRequestGo, hoc]

lemma makeRequestGo_err_zero {α : Type} (oracle : Nat → TransportOutcome α)
    (rd ci rc : Nat) (st : Option Nat) (hoc : oracle ci = .err st) :
    makeRequestGo oracle rd ci rc 0 = ⟨.error st, [], 1, [classifyError st]⟩ := by
  rw [makeRequestGo, hoc]

lemma makeRequestGo_err_504 {α : Type} (oracle : Nat → TransportOutcome α)
    (rd ci rc n : Nat) (hoc : oracle ci = .err (some 504)) :
    makeRequestGo oracle rd ci rc (n + 1)
      = ⟨(makeRequestGo oracle rd (ci + 1) (rc + 1) n).result,
         rd * 2 ^ ((rc + 1) - 1) :: (makeRequestGo oracle rd (ci + 1) (rc + 1) n).delays,
         (makeRequestGo oracle rd (ci + 1) (rc + 1) n).calls + 1,
         (makeRequestGo oracle rd (ci + 1) (rc + 1) n).logs⟩ := by
  rw [makeRequestGo, hoc]
  simp

lemma makeRequestGo_err_other {α : Type} (oracle : Nat → TransportOutcome α)
    (rd ci rc n : Nat) (st : Option Nat) (hoc : oracle ci = .err st)
    (hne : st ≠ some 504) :
    makeRequestGo oracle rd ci rc (n + 1) = ⟨.error st, [], 1, [classifyError st]⟩ := by
  rw [makeRequestGo, hoc]
  simp [hne]

lemma makeRequestGo_spec {α : Type} (oracle : Nat → TransportOutcome α) (rd : Nat) :
    ∀ rem ci rc,
      1 ≤ (makeRequestGo oracle rd ci rc rem).calls ∧
      (makeRequestGo oracle rd ci rc rem).calls ≤ rem + 1 ∧
      (makeRequestGo oracle rd ci rc rem).delays
        = (List.range ((makeRequestGo oracle rd ci rc rem).calls - 1)).map
            (fun i => rd * 2 ^ (rc + i)) := by
  intro rem
  induction rem with
  | zero =>
    intro ci rc
    cases hoc : oracle ci with
    | ok a => rw [makeRequestGo_ok oracle rd ci rc 0 a hoc]; simp
    | err st => rw [makeRequestGo_err_zero oracle rd ci rc st hoc]; simp
  | succ n ih =>
    intro ci rc
    cases hoc : oracle ci with
    | ok a => rw [makeRequestGo_ok oracle rd ci rc (n + 1) a hoc]; simp
    | err st =>
      by_cases h504 : st = some 504
      · subst h504
        rw [makeRequestGo_err_504 oracle rd ci rc n hoc]
        obtain ⟨h1, h2, h3⟩ := ih (ci + 1) (rc + 1)
        refine ⟨by simp, by simpa using Nat.add_le_add_right h2 1, ?_⟩
        obtain ⟨m, hm⟩ : ∃ m, (makeRequestGo oracle rd (ci + 1) (rc + 1) n).calls = m + 1 :=
          ⟨(makeRequestGo oracle rd (ci + 1) (rc + 1) n).calls - 1, by omega⟩
        have hfun : (fun i => rd * 2 ^ ((rc + 1) + i))
            = (fun i => rd * 2 ^ (rc + i)) ∘ Nat.succ := by
          funext i
          have hx : (rc + 1) + i = rc + Nat.succ i := by omega
          simp [Function.comp_apply, hx]
        rw [hm] at h3
        simp only [Nat.add_sub_cancel] at h3
        simp only [Nat.add_sub_cancel, hm]
        rw [List.range_succ_eq_map, List.map_cons, List.map_map, h3, hfun]
        congr 1
      · rw [makeRequestGo_err_other oracle rd ci rc n st hoc h504]
        simp

/-- C2: a client operation makes at most `maxRetries + 1` transport calls;
the `j`-th backoff delay performed is `retryDelay * 2 ^ (j - 1)` (the
delays are exactly `retryDelay * 2 ^ i` for `i` ranging over the number of
retries); and in the claim's scenario — a status fetch answered 504 twice
and then COMPLETED, with defaults `maxRetries = 3`, `retryDelay = 2000` —
exactly two backoff delays of 2000ms and 4000ms occur and the call returns
COMPLETED after three transport calls. -/
theorem retry_backoff_spec (oracle : Nat → TransportOutcome String) (mr rd : Nat) :
    (makeRequest oracle mr rd).calls ≤ mr + 1 ∧
    (makeRequest oracle mr rd).delays
      = (List.range ((makeRequest oracle mr rd).calls - 1)).map (fun i => rd * 2 ^ i) ∧
    (oracle 0 = .err (some 504) → oracle 1 = .err (some 504) →
      oracle 2 = .ok "COMPLETED" →
      getJobStatus oracle (some "job-1") 3 2000
        = some ⟨.ok "COMPLETED", [2000, 4000], 3, []⟩) := by
  obtain ⟨_, h2, h3⟩ := makeRequestGo_spec oracle rd mr 0 0
  refine ⟨h2, by simpa using h3, ?_⟩
  intro o0 o1 o2
  unfold getJobStatus makeRequest
  rw [makeRequestGo, o0]
  norm_num
  rw [makeRequestGo, o1]
  norm_num
  rw [makeRequestGo, o2]
  norm_num [jsTruthyStr]
  decide

/-- C2 witness: the scenario instantiated at a concrete transport oracle
answering 504, 504, then COMPLETED. -/
theorem retry_backoff_spec_witness :
    getJobStatus oracle504 (some "job-1") 3 2000
      = some ⟨.ok "COMPLETED", [2000, 4000], 3, []⟩ :=
  (retry_backoff_spec oracle504 3 2000).2.2 rfl rfl rfl

/-- C7: an attempt whose transport call fails with any status other than
504 — including responses 400, 401, 403, 404, 429, 500 and network errors
without a response — fails immediately: one transport call, no backoff
delay, no retry; the error is classified by `handleError` and rethrown. -/
theorem nontransient_fail_fast {α : Type} (oracle : Nat → TransportOutcome α)
    (rd ci rc rem : Nat) (st : Option Nat) (hoc : oracle ci = .err st)
    (hne : st ≠ some 504) :
    makeRequestGo oracle rd ci rc rem = ⟨.error st, [], 1, [classifyError st]⟩ := by
  cases rem with
  | zero => exact makeRequestGo_err_zero oracle rd ci rc st hoc
  | succ n => exact makeRequestGo_err_other oracle rd ci rc n st hoc hne

/-- C7 witness: a 401 response fails at once with the Unauthorized
classification, performing a single transport call and no delays. -/
theorem nontransient_fail_fast_witness :
    makeRequestGo oracle401 2000 0 0 3
      = ⟨.error (some 401), [], 1, ["Unauthorized: Check your authorization token."]⟩ :=
  nontransient_fail_fast oracle401 2000 0 0 3 (some 401) rfl (by decide)

lemma checkJobStatus_running_step (t : List (Except JsError (Option String))) :
    checkJobStatus (.ok (some "RUNNING") :: t)
      = ⟨(checkJobStatus t).outcome, (checkJobStatus t).polls + 1,
         5000 :: (checkJobStatus t).sleeps⟩ := rfl

/-- C3: `checkJobStatus` maps each polled status value as follows and does
nothing else: COMPLETED returns `true`; FAILED or CANCELED throws an error
naming the terminal state after that single poll; RUNNING sleeps 5000ms
and polls again; any other value — `undefined` included — throws an
"Unexpected Job Status" error after that single poll. -/
theorem checkJobStatus_status_map (rest : List (Except JsError (Option String)))
    (s : Option String) :
    checkJobStatus (.ok (some "COMPLETED") :: rest) = ⟨some (.ret (some true)), 1, []⟩ ∧
    ((s = some "FAILED" ∨ s = some "CANCELED") →
      checkJobStatus (.ok s :: rest)
        = ⟨some (.thrown (.js ("Job " ++ jsShowStatus s ++ ". Unable to retrieve result."))),
           1, []⟩) ∧
    (checkJobStatus (.ok (some "RUNNING") :: rest)
      = ⟨(checkJobStatus rest).outcome, (checkJobStatus rest).polls + 1,
         5000 :: (checkJobStatus rest).sleeps⟩) ∧
    (s ≠ some "COMPLETED" → s ≠ some "FAILED" → s ≠ some "CANCELED" →
      s ≠ some "RUNNING" →
      checkJobStatus (.ok s :: rest)
        = ⟨some (.thrown (.js ("Unexpected Job Status: " ++ jsShowStatus s))), 1, []⟩) := by
  refine ⟨rfl, ?_, checkJobStatus_running_step rest, ?_⟩
  · rintro (hs | hs) <;> subst hs <;> rfl
  · intro h1 h2 h3 h4
    simp [checkJobStatus, h1, h2, h3, h4]

/-- C3 witness: the FAILED/CANCELED and unexpected-status branches
instantiated at concrete poll sequences. -/
theorem checkJobStatus_status_map_witness :
    checkJobStatus [.ok (some "CANCELED")]
      = ⟨some (.thrown (.js "Job CANCELED. Unable to retrieve result.")), 1, []⟩ ∧
    checkJobStatus [.ok (some "BOGUS")]
      = ⟨some (.thrown (.js "Unexpected Job Status: BOGUS")), 1, []⟩ :=
  ⟨(checkJobStatus_status_map [] (some "CANCELED")).2.1 (Or.inr rfl),
   (checkJobStatus_status_map [] (some "BOGUS")).2.2.2
     (by decide) (by decide) (by decide) (by decide)⟩

/-- C10: whenever `checkJobStatus` produces an outcome, that outcome is a
thrown error or the returned value `true` — never `undefined` or `false`;
consequently whenever polling completes without throwing, the orchestrator
guard `if (status)` passes and the result-export phase proceeds. -/
theorem poll_never_falsy (sts : List (Except JsError (Option String))) (o : JsOutcome)
    (ho : (checkJobStatus sts).outcome = some o) :
    ((∃ e, o = JsOutcome.thrown e) ∨ o = JsOutcome.ret (some true)) ∧
    (∀ v, o = JsOutcome.ret v → exportGuard v = true) := by
  induction sts with
  | nil => simp [checkJobStatus] at ho
  | cons hd rest ih =>
    cases hd with
    | error e =>
      simp [checkJobStatus] at ho
      subst ho
      refine ⟨Or.inl ⟨e, rfl⟩, ?_⟩
      intro v hv
      simp at hv
    | ok s =>
      by_cases hc : s = some "COMPLETED"
      · subst hc
        simp [checkJobStatus] at ho
        subst ho
        refine ⟨Or.inr rfl, ?_⟩
        intro v hv
        simp only [JsOutcome.ret.injEq] at hv
        subst hv
        rfl
      · by_cases hfc : s = some "FAILED" ∨ s = some "CANCELED"
        · have hstep : (checkJobStatus (.ok s :: rest)).outcome
              = some (.thrown (.js ("Job " ++ jsShowStatus s ++ ". Unable to retrieve result."))) := by
            rcases hfc with hs | hs <;> subst hs <;> rfl
          rw [hstep] at ho
          simp only [Option.some.injEq] at ho
          subst ho
          refine ⟨Or.inl ⟨_, rfl⟩, ?_⟩
          intro v hv
          simp at hv
        · by_cases hr : s = some "RUNNING"
          · subst hr
            rw [checkJobStatus_running_step] at ho
            exact ih ho
          · push_neg at hfc
            have hstep : checkJobStatus (.ok s :: rest)
                = ⟨some (.thrown (.js ("Unexpected Job Status: " ++ jsShowStatus s))), 1, []⟩ := by
              simp [checkJobStatus, hc, hfc.1, hfc.2, hr]
            rw [hstep] at ho
            simp only [Option.some.injEq] at ho
            subst ho
            refine ⟨Or.inl ⟨_, rfl⟩, ?_⟩
            intro v hv
            simp at hv

/-- C10 witness: the conclusion instantiated at a single COMPLETED poll,
whose outcome is the returned value `true`, on which the orchestrator's
guard passes. -/
theorem poll_never_falsy_witness :
    ((∃ e, JsOutcome.ret (some true) = JsOutcome.thrown e) ∨
      JsOutcome.ret (some true) = JsOutcome.ret (some true)) ∧
    (∀ v, JsOutcome.ret (some true) = JsOutcome.ret v → exportGuard v = true) :=
  poll_never_falsy [.ok (some "COMPLETED")] (.ret (some true)) rfl

lemma checkJobStatus_replicate_running (k : Nat)
    (l : List (Except JsError (Option String))) :
    checkJobStatus (List.replicate k (.ok (some "RUNNING")) ++ l)
      = ⟨(checkJobStatus l).outcome, (checkJobStatus l).polls + k,
         List.replicate k 5000 ++ (checkJobStatus l).sleeps⟩ := by
  induction k with
  | zero => simp
  | succ j ih =>
    rw [List.replicate_succ, List.cons_append, checkJobStatus_running_step, ih]
    simp only [PollRun.mk.injEq, List.replicate_succ, List.cons_append, true_and, and_true]
    omega

/-- C8: if after `k` RUNNING polls a job's status comes back FAILED or
CANCELED, polling halts at once — exactly `k + 1` status requests are ever
made — and no result fetch occurs for that job: the category ends with the
thrown terminal-state error, zero `getJobResult` calls and zero sink
writes. -/
theorem terminal_status_halts (k : Nat) (rest : List (Except JsError (Option String)))
    (s : Option String) (fate : CatFate) (fuel : Nat) (jobId : Option String)
    (hsub : fate.submit = .ok jobId) (hj : jsTruthyStr jobId = true)
    (hs : s = some "FAILED" ∨ s = some "CANCELED")
    (hst : fate.statuses = List.replicate k (.ok (some "RUNNING")) ++ .ok s :: rest) :
    processCategory fate fuel
      = ⟨some (.error (.js ("Job " ++ jsShowStatus s ++ ". Unable to retrieve result."))),
         k + 1, 0, [], []⟩ := by
  have hterm : checkJobStatus (Except.ok s :: rest)
      = ⟨some (.thrown (.js ("Job " ++ jsShowStatus s ++ ". Unable to retrieve result."))),
         1, []⟩ := by
    rcases hs with h | h <;> subst h <;> rfl
  unfold processCategory
  rw [hsub]
  simp only [hj, if_true]
  rw [hst, checkJobStatus_replicate_running, hterm]
  simp [Nat.add_comm]

/-- C8 witness: one RUNNING poll then FAILED — two polls, no result
fetch, the FAILED error propagated. -/
theorem terminal_status_halts_witness :
    processCategory
        ⟨.ok (some "j2"), [.ok (some "RUNNING"), .ok (some "FAILED")],
         fun _ _ => .ok none⟩ 7
      = ⟨some (.error (.js "Job FAILED. Unable to retrieve result.")), 2, 0, [], []⟩ :=
  terminal_status_halts 1 [] (some "FAILED")
    ⟨.ok (some "j2"), [.ok (some "RUNNING"), .ok (some "FAILED")], fun _ _ => .ok none⟩
    7 (some "j2") rfl (by decide) (Or.inl rfl) rfl

lemma handleExportProcess_cons (f : CatFate) (rest : List CatFate) (fuel : Nat) :
    handleExportProcess (f :: rest) fuel
      = match (processCategory f fuel).outcome with
        | none => (none, 1, [processCategory f fuel])
        | some (.error e) => (some (.error e), 1, [processCategory f fuel])
        | some (.ok _) =>
          ((handleExportProcess rest fuel).1, (handleExportProcess rest fuel).2.1 + 1,
            processCategory f fuel :: (handleExportProcess rest fuel).2.2) := rfl

lemma handleExportProcess_fail_aux (fuel : Nat) (e : JsError) (f : CatFate)
    (post : List CatFate) (hf : (processCategory f fuel).outcome = some (.error e)) :
    ∀ pre : List CatFate,
      (∀ g ∈ pre, (processCategory g fuel).outcome = some (.ok ())) →
      handleExportProcess (pre ++ f :: post) fuel
        = (some (.error e), pre.length + 1,
           (pre ++ [f]).map (fun g => processCategory g fuel)) := by
  intro pre
  induction pre with
  | nil =>
    intro _
    simp only [List.nil_append]
    rw [handleExportProcess_cons, hf]
    simp
  | cons g gs ih =>
    intro hpre
    have hg : (processCategory g fuel).outcome = some (.ok ()) := hpre g (by simp)
    have ih' := ih (fun x hx => hpre x (by simp [hx]))
    simp only [List.cons_append]
    rw [handleExportProcess_cons, hg, ih']
    simp

/-- C9: `handleExportProcess` processes the export requests strictly in
list order, and when the processing of some request ends in a thrown error
— from submission, status polling, or result export — the whole run aborts
with that error: exactly the requests up to and including the failing one
are started, and no later request in the list is submitted or processed. -/
theorem orchestrator_fail_fast (pre : List CatFate) (f : CatFate) (post : List CatFate)
    (fuel : Nat) (e : JsError)
    (hpre : ∀ g ∈ pre, (processCategory g fuel).outcome = some (.ok ()))
    (hf : (processCategory f fuel).outcome = some (.error e)) :
    handleExportProcess (pre ++ f :: post) fuel
      = (some (.error e), pre.length + 1,
         (pre ++ [f]).map (fun g => processCategory g fuel)) :=
  handleExportProcess_fail_aux fuel e f post hf pre hpre

/-- C9 witness: a successful request, then one whose submission throws a
401 — the run aborts with the 401 after starting two of the three
requests; the trailing request is never reached. -/
theorem orchestrator_fail_fast_witness :
    handleExportProcess [okFate, badFate, okFate] 5
      = (some (.error (.http (some 401))), 2,
         ([okFate] ++ [badFate]).map (fun g => processCategory g 5)) :=
  orchestrator_fail_fast [okFate] badFate [okFate] 5 (.http (some 401))
    (by intro g hg; rw [List.mem_singleton] at hg; subst hg; rfl) rfl

/-- C4 is violated by the code: `writeCsvFile` passes `header: true` to
the stringifier on every call and then appends, so appending further rows
to an already-existing session file writes the column header row again.
After two writes for the same athlete and session the file contains the
header line twice, not once. -/
theorem writeCsvFile_header_rewritten :
    Option.map (fun fs2 => readFileOrEmpty fs2 "./data/A/session_S.csv")
      ((writeCsvFile ⟨[], []⟩ [[("athleteid", "A"), ("sessionid", "S"), ("metric", "1")]]
          "A" "S").bind
        (fun fs1 =>
          writeCsvFile fs1 [[("athleteid", "A"), ("sessionid", "S"), ("metric", "2")]]
            "A" "S"))
      = some "athleteid,sessionid,metric\nA,S,1\nathleteid,sessionid,metric\nA,S,2\n" :=
  rfl

set_option maxRecDepth 20000 in
/-- C5 is false as stated: with the claim's status sequence and a 637-row
result set served as pages of 500 and then 137, `handleDataExport` issues
a third result-fetch call (at offset 637), which returns the empty page
that terminates the loop — three pagination calls, not two. -/
theorem export_pagination_cex :
    (processCategory fate637 10).fetches = 3 ∧
    (processCategory fate637 10).fetches ≠ 2 := by
  have h3 : (processCategory fate637 10).fetches = 3 := rfl
  exact ⟨h3, by omega⟩

set_option maxRecDepth 20000 in
/-- C5 (amended): for the job with status sequence [RUNNING, RUNNING,
COMPLETED] and a 637-row result set served as pages of 500 and then 137,
the export makes exactly three pagination calls, at offsets 0, 500 and 637
— the last returning the empty page that stops the loop — delivers all 637
rows to the sink, and performs the final flush once after the stream
ends. -/
theorem export_pagination_amended :
    processCategory fate637 10
      = ⟨some (.ok ()), 3, 3, [0, 500, 637],
         [⟨List.replicate 637 ⟨"A", "S", 0⟩, some "A", some "S"⟩]⟩ ∧
    (flushedRows (processCategory fate637 10).flushes).length = 637 :=
  ⟨rfl, rfl⟩

end UpliftSample
